import Mathlib

/-!
Verification of the kinematics core of `allwpilib` (files
`frc/kinematics/ChassisSpeeds.h` and `frc/kinematics/SwerveModuleState.h`).

The C++ code works on `double`; all claims under study are algebraic
identities on the arithmetic, so the embedding uses the exact field `ℚ`,
which keeps every definition executable and every equality decidable.
-/

namespace frc

/-- Modelled from the spec: the rotation/orientation type
(`frc/geometry/Rotation2d.h`) is not part of the sources under study.  The
spec treats it as "an opaque capability providing cosine and sine of an
angle", constrained to "supply valid cosine/sine (i.e., represent a
well-defined planar rotation)"; the default-constructed value is the
identity/zero rotation (cosine 1, sine 0). -/
structure Rotation2d where
  cos : ℚ := 1
  sin : ℚ := 0
  pyth : cos ^ 2 + sin ^ 2 = 1 := by norm_num

/-- `struct ChassisSpeeds`: three velocity components, each
zero-initialized (`double dx = 0; double dy = 0; double dtheta = 0;`). -/
structure ChassisSpeeds where
  dx : ℚ := 0
  dy : ℚ := 0
  dtheta : ℚ := 0
deriving DecidableEq

/-- `struct SwerveModuleState`: wheel speed (`double speed = 0`) and module
angle (`Rotation2d angle`, default-constructed). -/
structure SwerveModuleState where
  speed : ℚ := 0
  angle : Rotation2d := {}

/-- `ChassisSpeeds::FromFieldRelativeSpeeds`:
`return {vx * robotAngle.Cos() + vy * robotAngle.Sin(),
         -vx * robotAngle.Sin() + vy * robotAngle.Cos(), vtheta};` -/
def ChassisSpeeds.FromFieldRelativeSpeeds (vx vy vtheta : ℚ)
    (robotAngle : Rotation2d) : ChassisSpeeds :=
  { dx := vx * robotAngle.cos + vy * robotAngle.sin
    dy := -vx * robotAngle.sin + vy * robotAngle.cos
    dtheta := vtheta }

/-- The sum of two planar rotations, with cosine
`cos a * cos b - sin a * sin b` and sine `sin a * cos b + cos a * sin b`
(the angle-addition formulas). -/
def Rotation2d.add (a b : Rotation2d) : Rotation2d where
  cos := a.cos * b.cos - a.sin * b.sin
  sin := a.sin * b.cos + a.cos * b.sin
  pyth := by
    have ha := a.pyth
    have hb := b.pyth
    linear_combination (b.cos ^ 2 + b.sin ^ 2) * ha + hb

/-- The zero (identity) rotation: cosine 1, sine 0. -/
def Rotation2d.zero : Rotation2d := {}

/-- The quarter-turn rotation (90°): cosine 0, sine 1. -/
def Rotation2d.quarter : Rotation2d where
  cos := 0
  sin := 1
  pyth := by norm_num

end frc

open frc

/-- C1: for all inputs `vx, vy, vtheta` and every rotation `robotAngle`,
`FromFieldRelativeSpeeds` returns exactly
`dx = vx*cos + vy*sin`, `dy = -vx*sin + vy*cos`, `dtheta = vtheta`. -/
theorem fromFieldRelativeSpeeds_fields (vx vy vtheta : ℚ) (r : Rotation2d) :
    (ChassisSpeeds.FromFieldRelativeSpeeds vx vy vtheta r).dx
        = vx * r.cos + vy * r.sin ∧
      (ChassisSpeeds.FromFieldRelativeSpeeds vx vy vtheta r).dy
        = -vx * r.sin + vy * r.cos ∧
      (ChassisSpeeds.FromFieldRelativeSpeeds vx vy vtheta r).dtheta = vtheta :=
  ⟨rfl, rfl, rfl⟩

/-- C2: rotating the `(dx, dy)` of the result forward by `+θ`
(`dx*cos - dy*sin`, `dx*sin + dy*cos`) recovers the original `(vx, vy)`:
the transform is the exact inverse (passive) rotation by `-θ`. -/
theorem fromFieldRelativeSpeeds_roundTrip (vx vy vtheta : ℚ)
    (r : Rotation2d) :
    (ChassisSpeeds.FromFieldRelativeSpeeds vx vy vtheta r).dx * r.cos
        - (ChassisSpeeds.FromFieldRelativeSpeeds vx vy vtheta r).dy * r.sin
        = vx ∧
      (ChassisSpeeds.FromFieldRelativeSpeeds vx vy vtheta r).dx * r.sin
        + (ChassisSpeeds.FromFieldRelativeSpeeds vx vy vtheta r).dy * r.cos
        = vy := by
  have h := r.pyth
  constructor
  · simp only [ChassisSpeeds.FromFieldRelativeSpeeds]
    linear_combination vx * h
  · simp only [ChassisSpeeds.FromFieldRelativeSpeeds]
    linear_combination vy * h

/-- C3: the `dtheta` field of the result always equals the input `vtheta`;
the heading has no influence on the angular-velocity component. -/
theorem fromFieldRelativeSpeeds_dtheta (vx vy vtheta : ℚ) (r : Rotation2d) :
    (ChassisSpeeds.FromFieldRelativeSpeeds vx vy vtheta r).dtheta = vtheta :=
  rfl

/-- C4: with the zero heading (cosine 1, sine 0) the transform is the
identity: the result is exactly `⟨vx, vy, vtheta⟩`. -/
theorem fromFieldRelativeSpeeds_zeroHeading (vx vy vtheta : ℚ) :
    ChassisSpeeds.FromFieldRelativeSpeeds vx vy vtheta Rotation2d.zero
      = ⟨vx, vy, vtheta⟩ := by
  simp only [ChassisSpeeds.FromFieldRelativeSpeeds, Rotation2d.zero,
    ChassisSpeeds.mk.injEq]
  refine ⟨by ring, by ring, trivial⟩

/-- C5: for every well-defined planar rotation (cos² + sin² = 1) the
transform preserves the squared magnitude of the translational velocity:
`dx² + dy² = vx² + vy²`. -/
theorem fromFieldRelativeSpeeds_norm (vx vy vtheta : ℚ) (r : Rotation2d) :
    (ChassisSpeeds.FromFieldRelativeSpeeds vx vy vtheta r).dx ^ 2
        + (ChassisSpeeds.FromFieldRelativeSpeeds vx vy vtheta r).dy ^ 2
      = vx ^ 2 + vy ^ 2 := by
  have h := r.pyth
  simp only [ChassisSpeeds.FromFieldRelativeSpeeds]
  linear_combination (vx ^ 2 + vy ^ 2) * h

/-- C6: `FromFieldRelativeSpeeds(1, 0, 0, heading = 90°)` (cosine 0,
sine 1) returns `dx = 0, dy = -1, dtheta = 0`. -/
theorem fromFieldRelativeSpeeds_quarterTurn :
    ChassisSpeeds.FromFieldRelativeSpeeds 1 0 0 Rotation2d.quarter
      = ⟨0, -1, 0⟩ := by
  simp only [ChassisSpeeds.FromFieldRelativeSpeeds, Rotation2d.quarter,
    ChassisSpeeds.mk.injEq]
  norm_num

/-- C7: a default-constructed `ChassisSpeeds` has `dx = dy = dtheta = 0`;
a default-constructed `SwerveModuleState` has `speed = 0` and `angle` the
zero (identity) rotation, i.e. cosine 1 and sine 0. -/
theorem default_construction :
    ({} : ChassisSpeeds).dx = 0 ∧ ({} : ChassisSpeeds).dy = 0 ∧
      ({} : ChassisSpeeds).dtheta = 0 ∧
      ({} : SwerveModuleState).speed = 0 ∧
      ({} : SwerveModuleState).angle.cos = Rotation2d.zero.cos ∧
      ({} : SwerveModuleState).angle.sin = Rotation2d.zero.sin :=
  ⟨rfl, rfl, rfl, rfl, rfl, rfl⟩

/-- C8: `FromFieldRelativeSpeeds` is a deterministic function of its four
arguments alone: calls with identical arguments give identical results.
(Totality and freedom from side effects hold by construction: the
embedding is a total pure function on all of `ℚ`.) -/
theorem fromFieldRelativeSpeeds_deterministic
    (vx₁ vy₁ vθ₁ : ℚ) (r₁ : Rotation2d) (vx₂ vy₂ vθ₂ : ℚ) (r₂ : Rotation2d)
    (hx : vx₁ = vx₂) (hy : vy₁ = vy₂) (hθ : vθ₁ = vθ₂) (hr : r₁ = r₂) :
    ChassisSpeeds.FromFieldRelativeSpeeds vx₁ vy₁ vθ₁ r₁
      = ChassisSpeeds.FromFieldRelativeSpeeds vx₂ vy₂ vθ₂ r₂ := by
  rw [hx, hy, hθ, hr]

/-- Witness for C8 at concrete inputs. -/
theorem fromFieldRelativeSpeeds_deterministic_witness :
    ChassisSpeeds.FromFieldRelativeSpeeds 1 2 3 Rotation2d.quarter
      = ChassisSpeeds.FromFieldRelativeSpeeds 1 2 3 Rotation2d.quarter :=
  fromFieldRelativeSpeeds_deterministic 1 2 3 Rotation2d.quarter
    1 2 3 Rotation2d.quarter rfl rfl rfl rfl

/-- C9: for every fixed heading the transform is linear in
`(vx, vy, vtheta)`: it commutes with scalar scaling and componentwise
addition of input triples, and maps the zero triple to the all-zero
`ChassisSpeeds`. -/
theorem fromFieldRelativeSpeeds_linear (c vx vy vtheta vx' vy' vtheta' : ℚ)
    (r : Rotation2d) :
    ChassisSpeeds.FromFieldRelativeSpeeds (c * vx) (c * vy) (c * vtheta) r
        = ⟨c * (ChassisSpeeds.FromFieldRelativeSpeeds vx vy vtheta r).dx,
           c * (ChassisSpeeds.FromFieldRelativeSpeeds vx vy vtheta r).dy,
           c * (ChassisSpeeds.FromFieldRelativeSpeeds vx vy vtheta r).dtheta⟩ ∧
      ChassisSpeeds.FromFieldRelativeSpeeds (vx + vx') (vy + vy')
          (vtheta + vtheta') r
        = ⟨(ChassisSpeeds.FromFieldRelativeSpeeds vx vy vtheta r).dx
             + (ChassisSpeeds.FromFieldRelativeSpeeds vx' vy' vtheta' r).dx,
           (ChassisSpeeds.FromFieldRelativeSpeeds vx vy vtheta r).dy
             + (ChassisSpeeds.FromFieldRelativeSpeeds vx' vy' vtheta' r).dy,
           (ChassisSpeeds.FromFieldRelativeSpeeds vx vy vtheta r).dtheta
             + (ChassisSpeeds.FromFieldRelativeSpeeds vx' vy' vtheta' r).dtheta⟩ ∧
      ChassisSpeeds.FromFieldRelativeSpeeds 0 0 0 r = ⟨0, 0, 0⟩ := by
  refine ⟨?_, ?_, ?_⟩ <;>
    simp only [ChassisSpeeds.FromFieldRelativeSpeeds,
      ChassisSpeeds.mk.injEq] <;>
    refine ⟨by ring, by ring, by ring⟩

/-- C10: feeding the result of the transform with heading `a` back in as
field speeds with heading `b` equals one transform with heading `a + b`
(angle-addition on cosine and sine). -/
theorem fromFieldRelativeSpeeds_compose (vx vy vtheta : ℚ)
    (a b : Rotation2d) :
    ChassisSpeeds.FromFieldRelativeSpeeds
        (ChassisSpeeds.FromFieldRelativeSpeeds vx vy vtheta a).dx
        (ChassisSpeeds.FromFieldRelativeSpeeds vx vy vtheta a).dy
        (ChassisSpeeds.FromFieldRelativeSpeeds vx vy vtheta a).dtheta b
      = ChassisSpeeds.FromFieldRelativeSpeeds vx vy vtheta
          (Rotation2d.add a b) := by
  simp only [ChassisSpeeds.FromFieldRelativeSpeeds, Rotation2d.add,
    ChassisSpeeds.mk.injEq]
  refine ⟨by ring, by ring, trivial⟩
